import Mathlib

/-!
# Verification of the statement-parser document pipeline

A shallow embedding of the document-processing pipeline of the
statementAIParser repository, together with theorems settling the
specification claims about it.

Embedded components, each translated from the TypeScript/JavaScript source:

* the response sanitizer `cleanJsonString`
  (`web/src/app/api/process-pdf/route.ts`);
* the category aggregator of `renderIncomeAndOutgoings`
  (`web/src/components/layout/summary-card.tsx`), over an exact model of
  IEEE-754 binary64 ("JavaScript number") arithmetic;
* the document classifier of `handleAnalyzeDocuments` (page component);
* the statement-processing endpoint `POST /api/process-pdf`, modelled as a
  pure function from the request and the backend outcome to the HTTP
  response plus an ordered trace of its file-system and process effects;
* the passport endpoint's JSON-extraction heuristic and a model of
  JavaScript's `JSON.parse`.

Strings are modelled as `List Char` (the sources only ever manipulate
code-unit sequences; all inputs of interest are ASCII, where JavaScript
UTF-16 code units and Lean characters agree).
-/

namespace StatementParser

/-! ## JavaScript string primitives

`List Char` versions of the JavaScript string operations the sources use:
`trim`, `startsWith`, `endsWith`, `includes`, `toLowerCase`, `substring`.
-/

/-- The JavaScript `WhiteSpace ∪ LineTerminator` character set used by
`String.prototype.trim` (ECMA-262): TAB, LF, VT, FF, CR, SP, NBSP, ZWNBSP,
the Unicode `Zs` code points, and the line separators. -/
def isJsWs (c : Char) : Bool :=
  c = '\x09' || c = '\x0a' || c = '\x0b' || c = '\x0c' || c = '\x0d' ||
  c = ' ' || c = '\xa0' || c.val = 0xfeff ||
  c.val = 0x1680 || (0x2000 ≤ c.val && c.val ≤ 0x200a) ||
  c.val = 0x2028 || c.val = 0x2029 ||
  c.val = 0x202f || c.val = 0x205f || c.val = 0x3000

/-- Remove leading JavaScript whitespace. -/
def jsTrimL (l : List Char) : List Char := l.dropWhile isJsWs

/-- Remove trailing JavaScript whitespace. -/
def jsTrimR (l : List Char) : List Char := (jsTrimL l.reverse).reverse

/-- JavaScript `String.prototype.trim`. -/
def jsTrim (l : List Char) : List Char := jsTrimR (jsTrimL l)

/-- JavaScript `String.prototype.startsWith` (first argument is the
searched-for text). -/
def startsWithStr : List Char → List Char → Bool
  | [], _ => true
  | _ :: _, [] => false
  | p :: ps, c :: cs => p = c && startsWithStr ps cs

/-- JavaScript `String.prototype.endsWith`. -/
def endsWithStr (p l : List Char) : Bool := startsWithStr p.reverse l.reverse

/-- JavaScript `String.prototype.includes`: containment of a contiguous
substring. -/
def includesStr : List Char → List Char → Bool
  | _, [] => false
  | p, c :: cs => startsWithStr p (c :: cs) || includesStr p cs

/-- `includesStr` on the empty needle: every string contains it when
nonempty is not required; JavaScript `includes("")` is always `true`. -/
def includesStrJs (p l : List Char) : Bool :=
  if p = [] then true else includesStr p l

/-- JavaScript `String.prototype.toLowerCase` (ASCII case mapping; every
string the claims touch is ASCII). -/
def jsToLower (l : List Char) : List Char := l.map Char.toLower

/-! ## Response sanitizer

Translated from `cleanJsonString` of
`web/src/app/api/process-pdf/route.ts` (lines 28–46): trim, strip a
leading ```` ```json ```` (7 characters) or else a leading ```` ``` ````
(3 characters), strip a trailing ```` ``` ````, trim again. -/

/-- The three-backtick fence marker. -/
def fence : List Char := "```".data

/-- The fence marker with the `json` language tag. -/
def fenceJson : List Char := "```json".data

/-- The leading-marker removal step of `cleanJsonString` (lines 31–36 of
`route.ts`): drop a ```` ```json ```` prefix (7 characters), or else a
```` ``` ```` prefix (3 characters). -/
def stripLeadingFence (c : List Char) : List Char :=
  if startsWithStr fenceJson c then c.drop 7
  else if startsWithStr fence c then c.drop 3
  else c

/-- The trailing-marker removal step of `cleanJsonString` (lines 38–40 of
`route.ts`): `substring(0, length - 3)` when the text ends with the fence. -/
def stripTrailingFence (c : List Char) : List Char :=
  if endsWithStr fence c then c.take (c.length - 3) else c

/-- `cleanJsonString` of `route.ts`: trim, strip a leading fence, strip a
trailing fence, trim again. -/
def cleanJsonString (s : List Char) : List Char :=
  jsTrim (stripTrailingFence (stripLeadingFence (jsTrim s)))

example : cleanJsonString "```json\n\x7b\"a\":1\x7d\n```".data = "\x7b\"a\":1\x7d".data := by decide
example : cleanJsonString "  \x7b\"a\":1\x7d ".data = "\x7b\"a\":1\x7d".data := by decide
example : cleanJsonString "".data = "".data := by decide

/-! ## Sanitizer lemmas -/

theorem dropWhile_dropWhile (p : Char → Bool) (l : List Char) :
    List.dropWhile p (List.dropWhile p l) = List.dropWhile p l := by
  induction l with
  | nil => rfl
  | cons a as ih =>
    by_cases h : p a = true
    · simp [List.dropWhile_cons, h, ih]
    · simp [List.dropWhile_cons, h]

theorem jsTrimL_jsTrimL (l : List Char) : jsTrimL (jsTrimL l) = jsTrimL l :=
  dropWhile_dropWhile isJsWs l

theorem jsTrimR_jsTrimR (l : List Char) : jsTrimR (jsTrimR l) = jsTrimR l := by
  simp [jsTrimR, jsTrimL, List.reverse_reverse, dropWhile_dropWhile]

/-- The first character surviving a left trim is not whitespace. -/
theorem jsTrimL_head (l : List Char) (a : Char) (as : List Char)
    (h : jsTrimL l = a :: as) : isJsWs a = false := by
  induction l with
  | nil => simp [jsTrimL] at h
  | cons b bs ih =>
    by_cases hb : isJsWs b = true
    · exact ih (by simpa [jsTrimL, List.dropWhile_cons, hb] using h)
    · have : b :: bs = a :: as := by
        simpa [jsTrimL, List.dropWhile_cons, hb] using h
      cases this
      exact Bool.eq_false_iff.mpr hb

/-- A left trim is the identity on a list whose head is not whitespace. -/
theorem jsTrimL_eq_self (l : List Char)
    (h : ∀ a as, l = a :: as → isJsWs a = false) : jsTrimL l = l := by
  cases l with
  | nil => rfl
  | cons a as => simp [jsTrimL, List.dropWhile_cons, h a as rfl]

/-- A right trim only removes characters from the end: the result is an
initial segment of the input. -/
theorem jsTrimR_append (l : List Char) :
    ∃ t, l = jsTrimR l ++ t := by
  refine ⟨(List.takeWhile isJsWs l.reverse).reverse, ?_⟩
  have h := List.takeWhile_append_dropWhile (p := isJsWs) (l := l.reverse)
  calc l = l.reverse.reverse := (List.reverse_reverse l).symm
    _ = (List.takeWhile isJsWs l.reverse ++ List.dropWhile isJsWs l.reverse).reverse := by
        rw [h]
    _ = jsTrimR l ++ (List.takeWhile isJsWs l.reverse).reverse := by
        rw [List.reverse_append]; rfl

/-- Left-trimming after a right trim of a left-trimmed list does nothing. -/
theorem jsTrimL_jsTrimR_jsTrimL (l : List Char) :
    jsTrimL (jsTrimR (jsTrimL l)) = jsTrimR (jsTrimL l) := by
  apply jsTrimL_eq_self
  intro a as h
  obtain ⟨t, ht⟩ := jsTrimR_append (jsTrimL l)
  exact jsTrimL_head l a (as ++ t) (by rw [ht, h]; simp)

theorem jsTrim_jsTrim (l : List Char) : jsTrim (jsTrim l) = jsTrim l := by
  show jsTrimR (jsTrimL (jsTrimR (jsTrimL l))) = jsTrimR (jsTrimL l)
  rw [jsTrimL_jsTrimR_jsTrimL, jsTrimR_jsTrimR]

/-- The sanitizer's output is already trimmed. -/
theorem jsTrim_cleanJsonString (s : List Char) :
    jsTrim (cleanJsonString s) = cleanJsonString s := by
  simp only [cleanJsonString]; exact jsTrim_jsTrim _

/-- A text that starts with a longer marker also starts with any front part
of it. -/
theorem startsWithStr_append (p q l : List Char)
    (h : startsWithStr (p ++ q) l = true) : startsWithStr p l = true := by
  induction p generalizing l with
  | nil => rfl
  | cons a ps ih =>
    cases l with
    | nil => simp [startsWithStr] at h
    | cons c cs =>
      simp only [List.cons_append, startsWithStr, Bool.and_eq_true] at h ⊢
      exact ⟨h.1, ih cs h.2⟩

/-- C5 counterexample: the sanitizer is not idempotent.  On the input
```` ``````json ```` one pass strips the leading bare fence and returns
```` ```json ````; a second pass strips that as a tagged fence marker and
returns the empty string. -/
theorem C5_sanitizer_not_idempotent_cex :
    cleanJsonString (cleanJsonString "``````json".data) ≠
      cleanJsonString "``````json".data := by decide

/-- C5 (amended): the sanitizer is idempotent on every string whose
sanitized form neither starts nor ends with the ```` ``` ```` fence marker;
on general strings a second pass can strip further (see the
counterexample). -/
theorem C5_sanitizer_idem_amended (s : List Char)
    (h1 : startsWithStr fence (cleanJsonString s) = false)
    (h2 : endsWithStr fence (cleanJsonString s) = false) :
    cleanJsonString (cleanJsonString s) = cleanJsonString s := by
  have hJson : startsWithStr fenceJson (cleanJsonString s) = false := by
    cases hsw : startsWithStr fenceJson (cleanJsonString s) with
    | false => rfl
    | true =>
      have : startsWithStr fence (cleanJsonString s) = true :=
        startsWithStr_append fence "json".data _ (by simpa [fence, fenceJson] using hsw)
      rw [this] at h1; cases h1
  show jsTrim (stripTrailingFence (stripLeadingFence (jsTrim (cleanJsonString s)))) =
    cleanJsonString s
  rw [jsTrim_cleanJsonString]
  rw [stripLeadingFence, hJson, h1]
  simp only [Bool.false_eq_true, if_false]
  rw [stripTrailingFence, h2]
  simp only [Bool.false_eq_true, if_false]
  exact jsTrim_cleanJsonString s

/-- C5 witness: a concrete instantiation of the amended idempotence
theorem. -/
theorem C5_amended_witness :
    startsWithStr fence (cleanJsonString "abc".data) = false ∧
    endsWithStr fence (cleanJsonString "abc".data) = false ∧
    cleanJsonString (cleanJsonString "abc".data) = cleanJsonString "abc".data :=
  ⟨by decide, by decide, C5_sanitizer_idem_amended "abc".data (by decide) (by decide)⟩

/-! ## Exact model of JavaScript number arithmetic

JavaScript numbers are IEEE-754 binary64 values; `+` and `-` round the
exact result to the nearest representable value, ties to even.  Every
binary64 value is an exact rational, so the arithmetic is modelled exactly
on `ℚ`: `roundB64` is rounding to 53 significant bits (the normal range;
every amount in the repository's data is far inside it, so neither
subnormals nor overflow arise).  The base-2 logarithm is implemented by
fuel recursion so that the kernel can evaluate it on concrete inputs. -/

/-- Fuel-driven floor of `log₂ n` for naturals (`0` for `n ≤ 1`). -/
def log2fuel : ℕ → ℕ → ℕ
  | 0, _ => 0
  | f + 1, n => if n < 2 then 0 else log2fuel f (n / 2) + 1

/-- Floor of `log₂ n` for a positive natural. -/
def natLog2 (n : ℕ) : ℕ := log2fuel n n

theorem log2fuel_bounds (f : ℕ) : ∀ n : ℕ, 1 ≤ n → n ≤ f →
    2 ^ log2fuel f n ≤ n ∧ n < 2 ^ (log2fuel f n + 1) := by
  induction f with
  | zero => intro n h1 h2; omega
  | succ f ih =>
    intro n h1 h2
    by_cases hn : n < 2
    · have hone : n = 1 := by omega
      subst hone
      simp [log2fuel]
    · have h2' : n / 2 ≤ f := by omega
      have h1' : 1 ≤ n / 2 := by omega
      obtain ⟨ha, hb⟩ := ih (n / 2) h1' h2'
      have hstep : log2fuel (f + 1) n = log2fuel f (n / 2) + 1 := by
        simp [log2fuel, hn]
      rw [hstep]
      constructor
      · have : 2 ^ (log2fuel f (n / 2) + 1) = 2 * 2 ^ log2fuel f (n / 2) := by
          rw [pow_succ]; ring
        omega
      · have : 2 ^ (log2fuel f (n / 2) + 1 + 1) = 2 * 2 ^ (log2fuel f (n / 2) + 1) := by
          rw [pow_succ]; ring
        omega

theorem natLog2_bounds (n : ℕ) (h : 1 ≤ n) :
    2 ^ natLog2 n ≤ n ∧ n < 2 ^ (natLog2 n + 1) :=
  log2fuel_bounds n n h le_rfl

/-- Floor of `log₂ q` for a positive rational. -/
def floorLog2 (q : ℚ) : ℤ :=
  let e : ℤ := (natLog2 q.num.toNat : ℤ) - (natLog2 q.den : ℤ)
  if q < (2 : ℚ) ^ e then e - 1 else e

theorem two_zpow_nat (m : ℕ) : (2 : ℚ) ^ ((m : ℤ)) = ((2 ^ m : ℕ) : ℚ) := by
  rw [zpow_natCast]; push_cast; ring

theorem floorLog2_bounds (q : ℚ) (hq : 0 < q) :
    (2 : ℚ) ^ floorLog2 q ≤ q ∧ q < (2 : ℚ) ^ (floorLog2 q + 1) := by
  have hne2 : (2 : ℚ) ≠ 0 := by norm_num
  set a := q.num.toNat with hadef
  set b := q.den with hbdef
  have hbpos : 1 ≤ b := q.pos
  have hnumpos : 0 < q.num := Rat.num_pos.mpr hq
  have hapos : 1 ≤ a := by omega
  have haq : ((a : ℤ) : ℚ) = (q.num : ℚ) := by
    rw [hadef, Int.toNat_of_nonneg hnumpos.le]
  have hqab : q = (a : ℚ) / (b : ℚ) := by
    rw [hbdef]
    rw [show ((a : ℚ)) = ((a : ℤ) : ℚ) by push_cast; ring, haq]
    exact (Rat.num_div_den q).symm
  have hbq : (0 : ℚ) < (b : ℚ) := by positivity
  obtain ⟨ha1, ha2⟩ := natLog2_bounds a hapos
  obtain ⟨hb1, hb2'⟩ := natLog2_bounds b hbpos
  set la := natLog2 a with hladef
  set lb := natLog2 b with hlbdef
  set e : ℤ := (la : ℤ) - (lb : ℤ) with hedef
  -- strict lower bound 2 ^ (e - 1) < q
  have hlow : (2 : ℚ) ^ (e - 1) < q := by
    rw [hqab, lt_div_iff₀ hbq]
    have hb2q : ((b : ℚ)) < (2 : ℚ) ^ ((lb : ℤ) + 1) := by
      rw [show ((lb : ℤ) + 1) = (((lb + 1 : ℕ)) : ℤ) by push_cast; ring, two_zpow_nat]
      exact_mod_cast hb2'
    have haq' : ((2 : ℚ) ^ ((la : ℤ))) ≤ (a : ℚ) := by
      rw [two_zpow_nat]
      exact_mod_cast ha1
    calc (2 : ℚ) ^ (e - 1) * (b : ℚ)
        < (2 : ℚ) ^ (e - 1) * (2 : ℚ) ^ ((lb : ℤ) + 1) := by
          apply mul_lt_mul_of_pos_left hb2q (by positivity)
      _ = (2 : ℚ) ^ ((la : ℤ)) := by
          rw [← zpow_add₀ hne2]; congr 1; omega
      _ ≤ (a : ℚ) := haq'
  -- strict upper bound q < 2 ^ (e + 1)
  have hhigh : q < (2 : ℚ) ^ (e + 1) := by
    rw [hqab, div_lt_iff₀ hbq]
    have ha2q : (a : ℚ) < (2 : ℚ) ^ ((la : ℤ) + 1) := by
      rw [show ((la : ℤ) + 1) = (((la + 1 : ℕ)) : ℤ) by push_cast; ring, two_zpow_nat]
      exact_mod_cast ha2
    have hbq' : ((2 : ℚ) ^ ((lb : ℤ))) ≤ (b : ℚ) := by
      rw [two_zpow_nat]
      exact_mod_cast hb1
    calc (a : ℚ) < (2 : ℚ) ^ ((la : ℤ) + 1) := ha2q
      _ = (2 : ℚ) ^ (e + 1) * (2 : ℚ) ^ ((lb : ℤ)) := by
          rw [← zpow_add₀ hne2]; congr 1; omega
      _ ≤ (2 : ℚ) ^ (e + 1) * (b : ℚ) := by
          apply mul_le_mul_of_nonneg_left hbq' (by positivity)
  have hcases : floorLog2 q = if q < (2 : ℚ) ^ e then e - 1 else e := by
    rw [floorLog2]
  by_cases hc : q < (2 : ℚ) ^ e
  · rw [hcases, if_pos hc]
    exact ⟨hlow.le, by simpa using hc⟩
  · rw [hcases, if_neg hc]
    exact ⟨le_of_not_lt hc, hhigh⟩

/-- Round a rational to the nearest integer, ties to even. -/
def rne (x : ℚ) : ℤ :=
  let f := ⌊x⌋
  let r := x - (f : ℚ)
  if r < 1 / 2 then f
  else if 1 / 2 < r then f + 1
  else if f % 2 = 0 then f else f + 1

theorem rne_intCast (m : ℤ) : rne ((m : ℚ)) = m := by
  simp [rne, Int.floor_intCast]

/-- Exact model of IEEE-754 binary64 round-to-nearest-even (normal range):
round to 53 significant bits. -/
def roundB64 (q : ℚ) : ℚ :=
  if q = 0 then 0
  else ((rne (q * (2 : ℚ) ^ (52 - floorLog2 |q|)) : ℚ)) * (2 : ℚ) ^ (floorLog2 |q| - 52)

/-- JavaScript `+` on numbers. -/
def jsAdd (a b : ℚ) : ℚ := roundB64 (a + b)

/-- JavaScript `-` on numbers. -/
def jsSub (a b : ℚ) : ℚ := roundB64 (a - b)

/-- `values.reduce((sum, val) => sum + val, 0)` over JavaScript numbers. -/
def jsSum (vals : List ℚ) : ℚ := vals.foldl jsAdd 0

/-- A binary64 value that is an integer of magnitude below `2 ^ 53` is
exact: rounding returns it unchanged. -/
theorem roundB64_int (n : ℤ) (h : |n| < 2 ^ 53) : roundB64 ((n : ℚ)) = (n : ℚ) := by
  by_cases hz : n = 0
  · subst hz; simp [roundB64]
  · have hqz : ((n : ℚ)) ≠ 0 := Int.cast_ne_zero.mpr hz
    have habs : |((n : ℚ))| = ((|n| : ℤ) : ℚ) := (Int.cast_abs).symm
    have hpos : (0 : ℚ) < |((n : ℚ))| := abs_pos.mpr hqz
    obtain ⟨hl, hh⟩ := floorLog2_bounds _ hpos
    set e : ℤ := floorLog2 |((n : ℚ))| with hedef
    have hone : (1 : ℚ) ≤ |((n : ℚ))| := by
      rw [habs]
      have h1 : (1 : ℤ) ≤ |n| := by
        have := abs_pos.mpr hz
        omega
      exact_mod_cast h1
    -- e is nonnegative and at most 52
    have he0 : 0 ≤ e := by
      by_contra hneg
      push_neg at hneg
      have h1 : e + 1 ≤ 0 := by omega
      have hle1 : (2 : ℚ) ^ (e + 1) ≤ (2 : ℚ) ^ (0 : ℤ) :=
        zpow_le_zpow_right₀ (by norm_num) h1
      rw [zpow_zero] at hle1
      exact absurd (lt_of_lt_of_le hh hle1) (not_lt.mpr hone)
    have he52 : e ≤ 52 := by
      by_contra hgt
      push_neg at hgt
      have h53 : (53 : ℤ) ≤ e := by omega
      have hmono : (2 : ℚ) ^ (53 : ℤ) ≤ (2 : ℚ) ^ e :=
        zpow_le_zpow_right₀ (by norm_num) h53
      have habslt : |((n : ℚ))| < (2 : ℚ) ^ (53 : ℤ) := by
        rw [habs, show ((2 : ℚ) ^ (53 : ℤ)) = (((2 ^ 53 : ℤ)) : ℚ) by
          rw [show ((53 : ℤ)) = (((53 : ℕ)) : ℤ) by norm_num, zpow_natCast]; push_cast; ring]
        exact_mod_cast h
      exact absurd (lt_of_le_of_lt (hmono.trans hl) habslt) (lt_irrefl _)
    set k : ℕ := (52 - e).toNat with hkdef
    have hk : ((k : ℤ)) = 52 - e := by rw [hkdef]; omega
    rw [roundB64, if_neg hqz, ← hedef]
    have hcast : ((n : ℚ)) * (2 : ℚ) ^ (52 - e) = (((n * 2 ^ k : ℤ)) : ℚ) := by
      rw [show ((52 : ℤ) - e) = ((k : ℕ) : ℤ) by omega, zpow_natCast]
      push_cast; ring
    rw [hcast, rne_intCast]
    push_cast
    rw [show ((2 : ℚ) ^ (k : ℕ)) = (2 : ℚ) ^ ((k : ℕ) : ℤ) from (zpow_natCast _ _).symm]
    rw [mul_assoc, ← zpow_add₀ (by norm_num : (2 : ℚ) ≠ 0)]
    rw [show ((k : ℤ) + (e - 52)) = 0 by omega]
    simp

/-- Summation by `jsAdd` of (casts of) naturals is exact as long as the
running total stays below `2 ^ 53`. -/
theorem jsFold_nat (l : List ℕ) : ∀ acc : ℕ, acc + l.sum < 2 ^ 53 →
    List.foldl jsAdd ((acc : ℕ) : ℚ) (l.map fun n => ((n : ℕ) : ℚ)) =
      ((acc + l.sum : ℕ) : ℚ) := by
  induction l with
  | nil => intro acc h; simp
  | cons x xs ih =>
    intro acc h
    have hsum : x + xs.sum = (x :: xs).sum := by simp
    have hstep : jsAdd ((acc : ℕ) : ℚ) ((x : ℕ) : ℚ) = ((acc + x : ℕ) : ℚ) := by
      have hb : (acc + x : ℕ) < 2 ^ 53 := by
        simp only [List.sum_cons] at h
        omega
      have habs : |(((acc + x : ℕ)) : ℤ)| < 2 ^ 53 := by
        rw [abs_of_nonneg (Int.natCast_nonneg _)]
        exact_mod_cast hb
      have hr := roundB64_int (((acc + x : ℕ)) : ℤ) habs
      rw [jsAdd,
        show ((acc : ℚ)) + ((x : ℚ)) = ((((acc + x : ℕ)) : ℤ) : ℚ) by push_cast; ring, hr]
      push_cast; ring
    simp only [List.map_cons, List.foldl_cons, hstep]
    have h' : (acc + x) + xs.sum < 2 ^ 53 := by
      simp only [List.sum_cons] at h; omega
    have := ih (acc + x) h'
    rw [this]
    congr 1
    simp only [List.sum_cons]
    omega

/-! ## Category aggregator

Translated from `renderIncomeAndOutgoings` of `summary-card.tsx`
(lines 367–369):

```
const totalIncome = Object.values(income).reduce((sum, val) => sum + val, 0);
const totalOutgoings = Object.values(outgoings).reduce((sum, val) => sum + val, 0);
const netBalance = totalIncome - totalOutgoings;
```

A category mapping is the JavaScript object the UI receives from
`JSON.parse`: entries in insertion order, with amounts already rounded to
binary64 by the JSON number conversion. -/

/-- A category mapping: object entries in insertion order. -/
abbrev CategoryMap := List (String × ℚ)

/-- `Object.values` of a category mapping. -/
def objectValues (m : CategoryMap) : List ℚ := m.map Prod.snd

/-- `totalIncome` / `totalOutgoings` of `renderIncomeAndOutgoings`. -/
def totalOf (m : CategoryMap) : ℚ := jsSum (objectValues m)

/-- `netBalance = totalIncome - totalOutgoings` of
`renderIncomeAndOutgoings` (a JavaScript subtraction, hence rounded). -/
def netBalanceOf (inc out : CategoryMap) : ℚ :=
  jsSub (totalOf inc) (totalOf out)

/-- A category mapping whose amounts are whole numbers, as JavaScript
numbers (integers below `2 ^ 53` are exactly representable). -/
def natEntries (m : List (String × ℕ)) : CategoryMap :=
  m.map fun p => (p.1, ((p.2 : ℕ) : ℚ))

theorem jsSum_natCast (l : List ℕ) (h : l.sum < 2 ^ 53) :
    jsSum (l.map fun n => ((n : ℕ) : ℚ)) = ((l.sum : ℕ) : ℚ) := by
  have h0 := jsFold_nat l 0 (by omega)
  simpa [jsSum] using h0

theorem totalOf_natEntries (m : List (String × ℕ))
    (h : (m.map Prod.snd).sum < 2 ^ 53) :
    totalOf (natEntries m) = (((m.map Prod.snd).sum : ℕ) : ℚ) := by
  rw [totalOf, objectValues, natEntries, List.map_map]
  rw [show (Prod.snd ∘ fun p : String × ℕ => (p.1, ((p.2 : ℕ) : ℚ))) =
    ((fun n : ℕ => ((n : ℕ) : ℚ)) ∘ Prod.snd) from rfl]
  rw [← List.map_map]
  exact jsSum_natCast _ h

section ConcreteEvaluation

-- The Batteries rational operations carry `@[irreducible]`, which blocks
-- `decide` on concrete rational arithmetic; inside this section they are
-- restored to the ordinary reducibility so concrete values evaluate.
attribute [local semireducible] Rat.mul Rat.add Rat.sub Rat.inv

set_option maxRecDepth 8000

/-- C1 counterexample: the aggregator works in binary64 floating point and
its totals are not the exact decimal sums.  On the claim's own example
income, `{Salary: 1250.00, Bonus: 0.33}`, the computed `totalIncome` is
the binary64 sum, which differs from the exact decimal `1250.33`. -/
theorem C1_aggregator_drift_cex :
    totalOf [("Salary", roundB64 1250), ("Bonus", roundB64 (33 / 100))] ≠
      125033 / 100 := by decide

end ConcreteEvaluation

/-- C1 (amended): the aggregator sums with binary64 additions, so its
totals are exact only in the exact regime: for income and outgoings
mappings whose amounts are whole numbers with each side summing below
`2 ^ 53`, `totalIncome` and `totalOutgoings` equal the exact sums and
`netBalance` equals their exact difference (in particular empty mappings
sum to zero); for general two-decimal amounts the computed totals can
drift from the exact decimal sums (see the counterexample). -/
theorem C1_aggregator_exact_amended (inc out : List (String × ℕ))
    (h1 : (inc.map Prod.snd).sum < 2 ^ 53)
    (h2 : (out.map Prod.snd).sum < 2 ^ 53) :
    totalOf (natEntries inc) = (((inc.map Prod.snd).sum : ℕ) : ℚ) ∧
    totalOf (natEntries out) = (((out.map Prod.snd).sum : ℕ) : ℚ) ∧
    netBalanceOf (natEntries inc) (natEntries out) =
      (((inc.map Prod.snd).sum : ℕ) : ℚ) - (((out.map Prod.snd).sum : ℕ) : ℚ) := by
  refine ⟨totalOf_natEntries inc h1, totalOf_natEntries out h2, ?_⟩
  rw [netBalanceOf, totalOf_natEntries inc h1, totalOf_natEntries out h2, jsSub]
  set A : ℕ := (inc.map Prod.snd).sum with hA
  set B : ℕ := (out.map Prod.snd).sum with hB
  have habs : |(A - B : ℤ)| < 2 ^ 53 := by
    have hA' : ((A : ℤ)) < 2 ^ 53 := by exact_mod_cast h1
    have hB' : ((B : ℤ)) < 2 ^ 53 := by exact_mod_cast h2
    have hA0 : (0 : ℤ) ≤ ((A : ℤ)) := Int.natCast_nonneg _
    have hB0 : (0 : ℤ) ≤ ((B : ℤ)) := Int.natCast_nonneg _
    rw [abs_sub_lt_iff]
    omega
  have hd : ((A : ℚ)) - ((B : ℚ)) = (((A - B : ℤ)) : ℚ) := by push_cast; ring
  rw [hd, roundB64_int _ habs]

/-- C1 witness: a concrete instantiation of the amended exactness
theorem. -/
theorem C1_amended_witness :
    (([("Salary", 1250)] : List (String × ℕ)).map Prod.snd).sum < 2 ^ 53 ∧
    (([("Rent", 320)] : List (String × ℕ)).map Prod.snd).sum < 2 ^ 53 ∧
    netBalanceOf (natEntries [("Salary", 1250)]) (natEntries [("Rent", 320)]) =
      ((1250 : ℚ)) - ((320 : ℚ)) :=
  ⟨by decide, by decide,
    (C1_aggregator_exact_amended [("Salary", 1250)] [("Rent", 320)]
      (by decide) (by decide)).2.2⟩

/-- First element of the C6 counterexample: a three-entry income mapping
with the binary64 values of `0.1`, `0.2`, `0.3`. -/
def permIncomeA : CategoryMap :=
  [("A", roundB64 (1 / 10)), ("B", roundB64 (2 / 10)), ("C", roundB64 (3 / 10))]

/-- Second element of the C6 counterexample: the same entries in the
opposite insertion order. -/
def permIncomeB : CategoryMap :=
  [("C", roundB64 (3 / 10)), ("B", roundB64 (2 / 10)), ("A", roundB64 (1 / 10))]

section ConcreteEvaluationPerm

attribute [local semireducible] Rat.mul Rat.add Rat.sub Rat.inv

set_option maxRecDepth 8000

/-- C6 counterexample: binary64 summation is order-dependent, so the
aggregator is not invariant under permutation of the entries: summing the
binary64 values of `0.1`, `0.2`, `0.3` in that order gives the double
`0.6000000000000001`, while the reverse order gives the double `0.6`. -/
theorem C6_order_dependent_cex :
    permIncomeA.Perm permIncomeB ∧ totalOf permIncomeA ≠ totalOf permIncomeB := by
  constructor
  · have h : permIncomeB = permIncomeA.reverse := rfl
    rw [h]
    exact (List.reverse_perm _).symm
  · decide

end ConcreteEvaluationPerm

/-- C6 (amended): permutation invariance of the aggregator holds in the
exact regime — for mappings whose amounts are whole numbers summing below
`2 ^ 53`, every permutation of the entries yields the same computed total;
for general binary64 amounts the computed total depends on the entry order
(see the counterexample). -/
theorem C6_order_invariant_amended (m1 m2 : List (String × ℕ))
    (hp : m1.Perm m2) (h : (m1.map Prod.snd).sum < 2 ^ 53) :
    totalOf (natEntries m1) = totalOf (natEntries m2) := by
  have hsum : (m1.map Prod.snd).sum = (m2.map Prod.snd).sum :=
    (hp.map Prod.snd).sum_eq
  have h2 : (m2.map Prod.snd).sum < 2 ^ 53 := by rw [← hsum]; exact h
  rw [totalOf_natEntries m1 h, totalOf_natEntries m2 h2, hsum]

/-- C6 witness: a concrete instantiation of the amended
permutation-invariance theorem. -/
theorem C6_amended_witness :
    (([("A", 1), ("B", 2)] : List (String × ℕ)).Perm [("B", 2), ("A", 1)]) ∧
    (([("A", 1), ("B", 2)] : List (String × ℕ)).map Prod.snd).sum < 2 ^ 53 ∧
    totalOf (natEntries [("A", 1), ("B", 2)]) =
      totalOf (natEntries [("B", 2), ("A", 1)]) :=
  ⟨List.Perm.swap ("B", 2) ("A", 1) [],
   by decide,
   C6_order_invariant_amended [("A", 1), ("B", 2)] [("B", 2), ("A", 1)]
     (List.Perm.swap ("B", 2) ("A", 1) []) (by decide)⟩

/-! ## Document classifier

Translated from the dispatch loop of `handleAnalyzeDocuments` in the page
component (lines 486–517), which inspects `fileName = file.name.toLowerCase()`
and `fileType = file.type` and routes each uploaded file:

1. `.pdf` name containing `statement` → statement processing;
2. image-typed (MIME contains `image/`, or extension `.jpg`/`.jpeg`/`.png`)
   with a `licence`/`license`/`dl` keyword → driving-license processing;
3. any other `.pdf` name → statement processing;
4. any other image-typed file → driving-license processing;
5. otherwise → the "Unsupported file type" chat message.
-/

/-- The processing route selected for an uploaded file. -/
inductive DocRoute
  | statement
  | drivingLicense
  | passport
  | unsupported
  deriving DecidableEq

/-- `fileName.endsWith('.pdf')` on the lower-cased name. -/
def pdfNamed (name : List Char) : Bool :=
  endsWithStr ".pdf".data (jsToLower name)

/-- The image-typed test of `handleAnalyzeDocuments`:
`fileType.includes('image/') || fileName.endsWith('.jpg') || ...`. -/
def imageTyped (name ty : List Char) : Bool :=
  includesStr "image/".data ty ||
  endsWithStr ".jpg".data (jsToLower name) ||
  endsWithStr ".jpeg".data (jsToLower name) ||
  endsWithStr ".png".data (jsToLower name)

/-- `fileName.includes('licence') || fileName.includes('license') ||
fileName.includes('dl')`. -/
def hasLicenceKeyword (name : List Char) : Bool :=
  includesStr "licence".data (jsToLower name) ||
  includesStr "license".data (jsToLower name) ||
  includesStr "dl".data (jsToLower name)

/-- `fileName.includes('statement')`. -/
def hasStatementKeyword (name : List Char) : Bool :=
  includesStr "statement".data (jsToLower name)

/-- The classifier of `handleAnalyzeDocuments`: the if/else chain over the
file name and declared MIME type, in source order. -/
def classify (name ty : List Char) : DocRoute :=
  if pdfNamed name && hasStatementKeyword name then DocRoute.statement
  else if imageTyped name ty && hasLicenceKeyword name then DocRoute.drivingLicense
  else if pdfNamed name then DocRoute.statement
  else if imageTyped name ty then DocRoute.drivingLicense
  else DocRoute.unsupported

example : classify "statement_march.pdf".data "application/pdf".data =
    DocRoute.statement := by decide
example : classify "my_licence.jpg".data "image/jpeg".data =
    DocRoute.drivingLicense := by decide
example : classify "photo.png".data "image/png".data =
    DocRoute.drivingLicense := by decide

/-- C7 counterexample: the claim's licence-keyword rule is overridden by
the statement rule.  The file `statement_licence.pdf` with declared MIME
type `image/png` is image-typed and its name contains `licence`, so the
claim classifies it as a driving license; the code's first branch
(`.pdf` name containing `statement`) fires first and classifies it as a
statement. -/
theorem C7_classifier_keyword_cex :
    imageTyped "statement_licence.pdf".data "image/png".data = true ∧
    hasLicenceKeyword "statement_licence.pdf".data = true ∧
    classify "statement_licence.pdf".data "image/png".data = DocRoute.statement := by
  exact ⟨by decide, by decide, by decide⟩

/-- C7 (amended): the classifier applies its rules in priority order — a
`.pdf`-named file containing `statement` is always a statement; otherwise
an image-typed file with a licence/license/dl keyword is a driving
license; otherwise a `.pdf`-named file is a statement; otherwise an
image-typed file defaults to a driving license. -/
theorem C7_classifier_amended (name ty : List Char) :
    ((pdfNamed name && hasStatementKeyword name) = true →
      classify name ty = DocRoute.statement) ∧
    ((imageTyped name ty && hasLicenceKeyword name) = true →
      (pdfNamed name && hasStatementKeyword name) = false →
      classify name ty = DocRoute.drivingLicense) ∧
    (pdfNamed name = true →
      (imageTyped name ty && hasLicenceKeyword name) = false →
      classify name ty = DocRoute.statement) ∧
    (imageTyped name ty = true → pdfNamed name = false →
      classify name ty = DocRoute.drivingLicense) := by
  refine ⟨?_, ?_, ?_, ?_⟩
  · intro h
    simp [classify, h]
  · intro h hn
    simp [classify, h, hn]
  · intro h hn
    cases hs : hasStatementKeyword name <;> simp [classify, h, hn, hs]
  · intro h hp
    cases hl : hasLicenceKeyword name <;> simp [classify, h, hp, hl]

/-- C7 witness: the three classifier examples of the specification,
obtained from the amended theorem. -/
theorem C7_amended_witness :
    classify "statement_march.pdf".data "application/pdf".data = DocRoute.statement ∧
    classify "my_licence.jpg".data "image/jpeg".data = DocRoute.drivingLicense ∧
    classify "photo.png".data "image/png".data = DocRoute.drivingLicense :=
  ⟨(C7_classifier_amended "statement_march.pdf".data "application/pdf".data).1 (by decide),
   (C7_classifier_amended "my_licence.jpg".data "image/jpeg".data).2.1
     (by decide) (by decide),
   (C7_classifier_amended "photo.png".data "image/png".data).2.2.2
     (by decide) (by decide)⟩

/-- C8 counterexample: the unsupported outcome is reachable in the
classifier.  A file that is neither `.pdf`-named nor image-typed — here
`notes.txt` with MIME type `text/plain` — falls through every branch to
the "Unsupported file type" message. -/
theorem C8_unsupported_reachable_cex :
    classify "notes.txt".data "text/plain".data = DocRoute.unsupported := by decide

/-- C8 (amended): the classifier selects statement or driving-license for
exactly the files that are `.pdf`-named or image-typed; every other file
reaches the unsupported outcome, and the passport route is never selected
by this classifier (passports arrive through a separate upload channel). -/
theorem C8_classifier_total_amended (name ty : List Char) :
    (classify name ty ≠ DocRoute.unsupported ↔
      (pdfNamed name = true ∨ imageTyped name ty = true)) ∧
    classify name ty ≠ DocRoute.passport := by
  cases hp : pdfNamed name <;> cases hi : imageTyped name ty <;>
    cases hs : hasStatementKeyword name <;> cases hl : hasLicenceKeyword name <;>
    simp [classify, hp, hi, hs, hl]

/-- C8 witness: a concrete instantiation of the amended totality
theorem. -/
theorem C8_amended_witness :
    classify "doc.pdf".data "application/pdf".data ≠ DocRoute.unsupported ∧
    classify "doc.pdf".data "application/pdf".data ≠ DocRoute.passport :=
  ⟨((C8_classifier_total_amended "doc.pdf".data "application/pdf".data).1).mpr
     (Or.inl (by decide)),
   (C8_classifier_total_amended "doc.pdf".data "application/pdf".data).2⟩

/-! ## JSON.parse model

A model of JavaScript's `JSON.parse` (ECMA-404 grammar): whitespace is
space/tab/LF/CR; values are `null`, booleans, numbers, strings with
escapes, arrays, objects; numbers follow the strict JSON grammar (no
leading zeros, fraction and exponent need at least one digit) and are
converted to binary64 as JavaScript does; any trailing non-whitespace
input is an error.  Recursion over nested values is driven by a fuel
parameter large enough for any input (every recursive step consumes
input, and the fuel `2·length + 2` dominates the call depth). -/

/-- JSON whitespace (ECMA-404): space, tab, line feed, carriage return. -/
def isJsonWs (c : Char) : Bool := c = ' ' || c = '\t' || c = '\n' || c = '\x0d'

/-- Skip leading JSON whitespace. -/
def skipWs (s : List Char) : List Char := s.dropWhile isJsonWs

/-- A parsed JSON value. -/
inductive Json where
  | null
  | bool (b : Bool)
  | num (q : ℚ)
  | str (s : List Char)
  | arr (elems : List Json)
  | obj (members : List (List Char × Json))

/-- Value of a hexadecimal digit. -/
def hexVal (c : Char) : Option ℕ :=
  if '0' ≤ c && c ≤ '9' then some (c.toNat - 48)
  else if 'a' ≤ c && c ≤ 'f' then some (c.toNat - 87)
  else if 'A' ≤ c && c ≤ 'F' then some (c.toNat - 55)
  else none

/-- Prepend a character to a pending string-parse result. -/
def consChar (c : Char) (r : Option (List Char × List Char)) :
    Option (List Char × List Char) :=
  r.map fun p => (c :: p.1, p.2)

/-- Parse the body of a JSON string after the opening quote, handling the
JSON escapes and rejecting raw control characters. -/
def parseStrBody : List Char → Option (List Char × List Char)
  | [] => none
  | '"' :: rest => some ([], rest)
  | '\\' :: '"' :: r => consChar '"' (parseStrBody r)
  | '\\' :: '\\' :: r => consChar '\\' (parseStrBody r)
  | '\\' :: '/' :: r => consChar '/' (parseStrBody r)
  | '\\' :: 'b' :: r => consChar '\x08' (parseStrBody r)
  | '\\' :: 'f' :: r => consChar '\x0c' (parseStrBody r)
  | '\\' :: 'n' :: r => consChar '\n' (parseStrBody r)
  | '\\' :: 'r' :: r => consChar '\x0d' (parseStrBody r)
  | '\\' :: 't' :: r => consChar '\t' (parseStrBody r)
  | '\\' :: 'u' :: h1 :: h2 :: h3 :: h4 :: r =>
    (match hexVal h1, hexVal h2, hexVal h3, hexVal h4 with
     | some a, some b, some c, some d =>
       consChar (Char.ofNat (((a * 16 + b) * 16 + c) * 16 + d)) (parseStrBody r)
     | _, _, _, _ => none)
  | '\\' :: _ => none
  | c :: rest => if c.toNat < 32 then none else consChar c (parseStrBody rest)

/-- Decimal value of a digit string. -/
def digitsToNat (ds : List Char) : ℕ :=
  ds.foldl (fun a c => a * 10 + (c.toNat - 48)) 0

/-- Parse one or more decimal digits. -/
def digitsParse (s : List Char) : Option (ℕ × List Char) :=
  let d := s.takeWhile Char.isDigit
  if d.isEmpty then none else some (digitsToNat d, s.dropWhile Char.isDigit)

/-- Parse an optionally signed digit string (the exponent body). -/
def parseSignedDigits : List Char → Option (ℤ × List Char)
  | '+' :: r => (digitsParse r).map fun p => ((p.1 : ℤ), p.2)
  | '-' :: r => (digitsParse r).map fun p => (-(p.1 : ℤ), p.2)
  | r => (digitsParse r).map fun p => ((p.1 : ℤ), p.2)

/-- Parse the optional exponent part of a JSON number. -/
def parseExpPart : List Char → Option (ℤ × List Char)
  | 'e' :: rest => parseSignedDigits rest
  | 'E' :: rest => parseSignedDigits rest
  | s => some (0, s)

/-- Parse the optional fraction part of a JSON number. -/
def parseFracPart : List Char → Option (List Char × List Char)
  | '.' :: r =>
    let d := r.takeWhile Char.isDigit
    if d.isEmpty then none else some (d, r.dropWhile Char.isDigit)
  | s => some ([], s)

/-- Parse a JSON number (strict grammar: optional minus, integer part
without leading zeros, optional fraction, optional exponent), as an exact
rational. -/
def parseNum (s : List Char) : Option (ℚ × List Char) :=
  let signed : Bool × List Char :=
    match s with
    | '-' :: r => (true, r)
    | _ => (false, s)
  let ip := signed.2.takeWhile Char.isDigit
  let r1 := signed.2.dropWhile Char.isDigit
  if ip.isEmpty then none
  else if decide (1 < ip.length) && (ip.head? == some '0') then none
  else
    match parseFracPart r1 with
    | none => none
    | some (fp, r2) =>
      match parseExpPart r2 with
      | none => none
      | some (ex, r3) =>
        let mag : ℚ :=
          ((digitsToNat ip : ℚ) + (digitsToNat fp : ℚ) / (10 : ℚ) ^ fp.length) *
            (10 : ℚ) ^ ex
        some (if signed.1 then -mag else mag, r3)

mutual

/-- Parse a JSON value (fuel-driven). -/
def parseVal : ℕ → List Char → Option (Json × List Char)
  | 0, _ => none
  | fuel + 1, s =>
    match skipWs s with
    | [] => none
    | 'n' :: 'u' :: 'l' :: 'l' :: r => some (Json.null, r)
    | 't' :: 'r' :: 'u' :: 'e' :: r => some (Json.bool true, r)
    | 'f' :: 'a' :: 'l' :: 's' :: 'e' :: r => some (Json.bool false, r)
    | '"' :: r => (parseStrBody r).map fun p => (Json.str p.1, p.2)
    | '[' :: r =>
      (match skipWs r with
       | ']' :: r2 => some (Json.arr [], r2)
       | r2 => parseElems fuel r2 [])
    | '{' :: r =>
      (match skipWs r with
       | '}' :: r2 => some (Json.obj [], r2)
       | r2 => parseMembers fuel r2 [])
    | s2 => (parseNum s2).map fun p => (Json.num (roundB64 p.1), p.2)

/-- Parse the remaining elements of a nonempty JSON array. -/
def parseElems : ℕ → List Char → List Json → Option (Json × List Char)
  | 0, _, _ => none
  | fuel + 1, s, acc =>
    match parseVal fuel s with
    | none => none
    | some (v, r) =>
      match skipWs r with
      | ',' :: r2 => parseElems fuel r2 (acc ++ [v])
      | ']' :: r2 => some (Json.arr (acc ++ [v]), r2)
      | _ => none

/-- Parse the remaining members of a nonempty JSON object (duplicate keys
are kept, mirroring `JSON.parse`'s acceptance of duplicates). -/
def parseMembers : ℕ → List Char → List (List Char × Json) →
    Option (Json × List Char)
  | 0, _, _ => none
  | fuel + 1, s, acc =>
    match skipWs s with
    | '"' :: r =>
      (match parseStrBody r with
       | none => none
       | some (key, r2) =>
         match skipWs r2 with
         | ':' :: r3 =>
           (match parseVal fuel r3 with
            | none => none
            | some (v, r4) =>
              match skipWs r4 with
              | ',' :: r5 => parseMembers fuel r5 (acc ++ [(key, v)])
              | '}' :: r5 => some (Json.obj (acc ++ [(key, v)]), r5)
              | _ => none)
         | _ => none)
    | _ => none

end

/-- `JSON.parse`: parse a complete JSON document; trailing
non-whitespace input is an error. -/
def jsonParse (s : List Char) : Option Json :=
  match parseVal (2 * s.length + 2) s with
  | some (v, rest) => if (skipWs rest).isEmpty then some v else none
  | none => none

example : (jsonParse "".data).isSome = false := by decide
example : (jsonParse "\x7b".data).isSome = false := by decide
example : (jsonParse "\x7b\x7d".data).isSome = true := by decide
example : (jsonParse "01".data).isSome = false := by decide
example : (jsonParse "\x7b\"a\":\"b\",\x7d".data).isSome = false := by decide
example : (jsonParse " \x7b \"k\" : \"v\" \x7d ".data).isSome = true := by decide
example : (jsonParse "\x7b\"k\":\"v\"\x7d extra".data).isSome = false := by decide

/-! ## Statement-processing endpoint

Translated from `POST` of `web/src/app/api/process-pdf/route.ts`
(lines 48–137), modelled as a pure function of

* the `Date.now()` timestamp observed at line 64,
* the uploaded file from the form data (`None` when absent), and
* the outcome of the backend invocation (whether `execPromise` resolved,
  and the content of `jobOutputDir/summary.txt` if the script wrote it),

returning the HTTP response together with the ordered trace of the
endpoint's file-system and process effects.  Paths are built exactly as
`path.join` builds them from `TEMP_DIR = cwd/temp`,
`OUTPUT_DIR = cwd/output` and `BACKEND_OUTPUT_DIR = cwd/../backend/output`
(shown relative to `cwd`). -/

/-- An uploaded form-data file. -/
structure UploadFile where
  name : String
  deriving DecidableEq

/-- Outcome of the backend invocation: `ok s` when `execPromise` resolved
with `summary.txt` content `s` (or no such file), `fail` when it rejected
(non-zero exit), making the `await` throw. -/
inductive ExecOutcome where
  | ok (summaryFile : Option String)
  | fail (message : String)
  deriving DecidableEq

/-- One file-system or process effect of the endpoint, in program order. -/
inductive FsEv where
  | writeTemp (path : String)
  | mkJobDir (path : String)
  | execBackend (script input outDir : String)
  | readSummary (path : String)
  | writeRaw (path : String) (content : String)
  | parseAttempt (cleaned : String) (ok : Bool)
  | deleteTemp (path : String)
  deriving DecidableEq

/-- The endpoint's HTTP response: `ok summary` is
`{ success: true, summary, message: 'PDF processed successfully' }`;
`err status error` is an error response with that HTTP status. -/
inductive Resp where
  | ok (summary : String)
  | err (status : ℕ) (error : String)
  deriving DecidableEq

/-- `POST /api/process-pdf`. -/
def processPdfPost (t : ℕ) (file : Option UploadFile) (run : ExecOutcome) :
    Resp × List FsEv :=
  match file with
  | none => (Resp.err 400 "No file provided", [])
  | some f =>
    if endsWithStr ".pdf".data (jsToLower f.name.data) then
      let filePath := "temp/" ++ toString t ++ "_" ++ f.name
      let jobOutputDir := "output/job_" ++ toString t
      let ev0 := [FsEv.writeTemp filePath, FsEv.mkJobDir jobOutputDir,
        FsEv.execBackend "../backend/run_gemini_processor.py" filePath jobOutputDir]
      match run with
      | ExecOutcome.fail _ => (Resp.err 500 "Failed to process PDF", ev0)
      | ExecOutcome.ok none =>
        (Resp.ok "Summary file not found. Processing may have failed.",
          ev0 ++ [FsEv.deleteTemp filePath])
      | ExecOutcome.ok (some raw) =>
        let rawPath := "../backend/output/raw_gemini_response_" ++ toString t ++ ".txt"
        let cleaned : String := ⟨cleanJsonString raw.data⟩
        let parseOk := (jsonParse cleaned.data).isSome
        let summary := if parseOk then cleaned else raw
        (Resp.ok summary,
          ev0 ++ [FsEv.readSummary (jobOutputDir ++ "/summary.txt"),
            FsEv.writeRaw rawPath raw,
            FsEv.parseAttempt cleaned parseOk,
            FsEv.deleteTemp filePath])
    else (Resp.err 400 "Only PDF files are supported", [])

/-- The set of files present after a trace of effects, starting from an
empty file system (each write records its path; `deleteTemp` removes the
path it names). -/
def filesAfter (evs : List FsEv) : List String :=
  evs.foldl
    (fun fs e =>
      match e with
      | FsEv.writeTemp p => p :: fs
      | FsEv.writeRaw p _ => p :: fs
      | FsEv.deleteTemp p => fs.filter (fun q => q ≠ p)
      | _ => fs)
    []

/-- C9: a POST whose form data has no file, or whose file name does not
end in `.pdf` case-insensitively, is answered with an HTTP 400 error and
produces no effects: nothing is written to disk, no job directory is
created, and the backend is not invoked. -/
theorem C9_bad_request_rejected (t : ℕ) (file : Option UploadFile)
    (run : ExecOutcome)
    (h : file = none ∨ ∃ f, file = some f ∧
      endsWithStr ".pdf".data (jsToLower f.name.data) = false) :
    ∃ msg, processPdfPost t file run = (Resp.err 400 msg, []) := by
  rcases h with h | ⟨f, hf, hn⟩
  · subst h
    exact ⟨"No file provided", rfl⟩
  · subst hf
    refine ⟨"Only PDF files are supported", ?_⟩
    simp [processPdfPost, hn]

/-- C9 witness: a concrete upload named `notes.txt` is rejected with a 400
response and an empty effect trace. -/
theorem C9_witness :
    endsWithStr ".pdf".data (jsToLower ("notes.txt" : String).data) = false ∧
    ∃ msg, processPdfPost 7 (some ⟨"notes.txt"⟩) (ExecOutcome.ok none) =
      (Resp.err 400 msg, []) :=
  ⟨by decide,
   C9_bad_request_rejected 7 (some ⟨"notes.txt"⟩) (ExecOutcome.ok none)
     (Or.inr ⟨⟨"notes.txt"⟩, rfl, by decide⟩)⟩

/-- C2: evaluation of the code at the failing input.  Two distinct
submissions processed in the same millisecond — `Date.now()` returning
`1742075413775` for both — are both given the working directory
`output/job_1742075413775` (and the same derived job identifier), because
the allocation depends only on the millisecond timestamp. -/
theorem C2_same_millisecond_collision :
    ((processPdfPost 1742075413775 (some ⟨"a.pdf"⟩) (ExecOutcome.ok none)).2.contains
      (FsEv.mkJobDir "output/job_1742075413775") = true) ∧
    ((processPdfPost 1742075413775 (some ⟨"b.pdf"⟩) (ExecOutcome.ok none)).2.contains
      (FsEv.mkJobDir "output/job_1742075413775") = true) ∧
    (UploadFile.mk "a.pdf" ≠ UploadFile.mk "b.pdf") := by
  exact ⟨by decide, by decide, by decide⟩

/-- C3 counterexample: a statement job whose sanitized model response is
not parseable does not fail; the endpoint returns a success response
carrying the unparsed raw summary text. -/
theorem C3_parse_failure_still_success_cex :
    (jsonParse (cleanJsonString ("not json" : String).data)).isSome = false ∧
    (processPdfPost 1 (some ⟨"stmt.pdf"⟩)
      (ExecOutcome.ok (some "not json"))).1 = Resp.ok "not json" := by
  exact ⟨by decide, by decide⟩

/-- C3 (amended): when the sanitized model response is not parseable as
JSON, the endpoint catches the parse error, keeps the raw (uncleaned)
summary text, and still returns a success response carrying it; a decode
failure never yields an error response or a failed job at this
endpoint. -/
theorem C3_decode_failure_amended (t : ℕ) (f : UploadFile) (raw : String)
    (hpdf : endsWithStr ".pdf".data (jsToLower f.name.data) = true)
    (hparse : (jsonParse (cleanJsonString raw.data)).isSome = false) :
    (processPdfPost t (some f) (ExecOutcome.ok (some raw))).1 = Resp.ok raw := by
  simp [processPdfPost, hpdf, hparse]

/-- C3 witness: a concrete instantiation of the amended theorem. -/
theorem C3_amended_witness :
    endsWithStr ".pdf".data (jsToLower ("s.pdf" : String).data) = true ∧
    (jsonParse (cleanJsonString ("oops" : String).data)).isSome = false ∧
    (processPdfPost 3 (some ⟨"s.pdf"⟩) (ExecOutcome.ok (some "oops"))).1 =
      Resp.ok "oops" :=
  ⟨by decide, by decide,
   C3_decode_failure_amended 3 ⟨"s.pdf"⟩ "oops" (by decide) (by decide)⟩

/-- C10 counterexample: a job whose backend produced no `summary.txt`
still returns a success response, but no raw-response copy was ever
written — so a success response does not guarantee a persisted raw model
response. -/
theorem C10_missing_summary_cex :
    (processPdfPost 2 (some ⟨"s.pdf"⟩) (ExecOutcome.ok none)).1 =
      Resp.ok "Summary file not found. Processing may have failed." ∧
    ((processPdfPost 2 (some ⟨"s.pdf"⟩) (ExecOutcome.ok none)).2.any
      (fun e => match e with | FsEv.writeRaw _ _ => true | _ => false)) = false := by
  exact ⟨by decide, by decide⟩

/-- C10 (amended): for every statement job whose backend produced a
summary file, the endpoint returns a success response, and its effect
trace is exactly: write the temporary upload, create the job output
directory, invoke the backend, read the summary, persist the raw model
response (before the parse attempt, hence independently of its outcome),
attempt the parse, and delete the temporary upload last — so when the
response is returned the temporary file is gone while the raw-response
copy (and the job directory) remain; when the backend produced no summary
file, a success response is still returned but no raw copy exists. -/
theorem C10_success_frame_amended (t : ℕ) (f : UploadFile) (raw : String)
    (hpdf : endsWithStr ".pdf".data (jsToLower f.name.data) = true) :
    (∃ s, (processPdfPost t (some f) (ExecOutcome.ok (some raw))).1 = Resp.ok s) ∧
    (processPdfPost t (some f) (ExecOutcome.ok (some raw))).2 =
      [FsEv.writeTemp ("temp/" ++ toString t ++ "_" ++ f.name),
       FsEv.mkJobDir ("output/job_" ++ toString t),
       FsEv.execBackend "../backend/run_gemini_processor.py"
         ("temp/" ++ toString t ++ "_" ++ f.name) ("output/job_" ++ toString t),
       FsEv.readSummary ("output/job_" ++ toString t ++ "/summary.txt"),
       FsEv.writeRaw ("../backend/output/raw_gemini_response_" ++ toString t ++ ".txt") raw,
       FsEv.parseAttempt ⟨cleanJsonString raw.data⟩
         ((jsonParse (cleanJsonString raw.data)).isSome),
       FsEv.deleteTemp ("temp/" ++ toString t ++ "_" ++ f.name)] ∧
    filesAfter (processPdfPost t (some f) (ExecOutcome.ok (some raw))).2 =
      ["../backend/output/raw_gemini_response_" ++ toString t ++ ".txt"] := by
  have hne : ("../backend/output/raw_gemini_response_" ++ toString t ++ ".txt") ≠
      ("temp/" ++ toString t ++ "_" ++ f.name) := by
    intro h
    have h2 := congrArg String.data h
    rw [String.data_append, String.data_append, String.data_append,
      String.data_append] at h2
    simp at h2
  refine ⟨?_, ?_, ?_⟩
  · by_cases hp : (jsonParse (cleanJsonString raw.data)).isSome = true
    · exact ⟨⟨cleanJsonString raw.data⟩, by simp [processPdfPost, hpdf, hp]⟩
    · exact ⟨raw, by simp [processPdfPost, hpdf, hp]⟩
  · simp [processPdfPost, hpdf]
  · simp only [processPdfPost, hpdf, if_true]
    simp [filesAfter, hne]

/-- C10 witness: a concrete instantiation of the amended frame theorem. -/
theorem C10_amended_witness :
    endsWithStr ".pdf".data (jsToLower ("s.pdf" : String).data) = true ∧
    filesAfter (processPdfPost 4 (some ⟨"s.pdf"⟩)
        (ExecOutcome.ok (some "raw text"))).2 =
      ["../backend/output/raw_gemini_response_4.txt"] :=
  ⟨by decide,
   by
     have h := (C10_success_frame_amended 4 ⟨"s.pdf"⟩ "raw text" (by decide)).2.2
     simpa using h⟩

/-! ## Identity-document (passport) endpoint: result decoding

Translated from the result-reading section of the passport route
(`src/unnamed/part_005`, lines 74–108):

```
const jsonStart = resultData.indexOf('{');
const jsonEnd = resultData.indexOf('}') + 1;
if (jsonStart >= 0 && jsonEnd > jsonStart) {
  result = JSON.parse(resultData.substring(jsonStart, jsonEnd));
} else {
  result = JSON.parse(resultData);
}
```

with a parse failure caught and turned into a 500 error response, and a
missing result file turned into a 500 error response. -/

/-- JavaScript `String.prototype.indexOf` restricted to a single
character: index of the first occurrence, `-1` when absent. -/
def idxOf (s : List Char) (c : Char) : ℤ :=
  match List.findIdx? (fun x => x = c) s with
  | some i => (i : ℤ)
  | none => -1

/-- The JSON-extraction-and-parse step of the passport route: the span
from the first opening brace to the first closing brace inclusive when
such a span exists, otherwise the entire text, fed to `JSON.parse`; a
parse failure becomes the route's parse error. -/
def passportDecode (resultData : List Char) : Except String Json :=
  let jsonStart : ℤ := idxOf resultData '\x7b'
  let jsonEnd : ℤ := idxOf resultData '\x7d' + 1
  if 0 ≤ jsonStart ∧ jsonStart < jsonEnd then
    match jsonParse ((resultData.take jsonEnd.toNat).drop jsonStart.toNat) with
    | some j => Except.ok j
    | none => Except.error "Failed to parse passport data"
  else
    match jsonParse resultData with
    | some j => Except.ok j
    | none => Except.error "Failed to parse passport data"

/-- The passport route's response: success carrying the parsed result, or
an error response with an HTTP status. -/
inductive PassportResp where
  | ok (result : Json)
  | err (status : ℕ) (error : String)

/-- The result-handling tail of the passport `POST`: a missing result
file and a parse failure each produce a 500 error response; only a
successful parse produces a success response. -/
def passportPost (resultFile : Option (List Char)) : PassportResp :=
  match resultFile with
  | none => PassportResp.err 500 "Failed to process passport image. Result file not found."
  | some d =>
    match passportDecode d with
    | Except.error e => PassportResp.err 500 e
    | Except.ok j => PassportResp.ok j

/-- C4 counterexample: identity-document decoding hard-fails the job.  On
the result text `{"a":{"b":1}}` — a perfectly valid JSON document, as the
whole-text parse shows — the route extracts the span from the first `{`
to the first `}` (not the matching one), obtaining the unbalanced text
`{"a":{"b":1}`; the parse throws, and the caller receives a 500 error
response, not a fallback result. -/
theorem C4_hard_fail_cex :
    (jsonParse "\x7b\"a\":\x7b\"b\":1\x7d\x7d".data).isSome = true ∧
    passportPost (some "\x7b\"a\":\x7b\"b\":1\x7d\x7d".data) =
      PassportResp.err 500 "Failed to parse passport data" := by
  exact ⟨by decide, rfl⟩

/-- C4 (amended): for every result text containing an opening brace whose
first closing brace is at or after it, the decoder parses exactly the
substring from the first opening brace through the first closing brace
(which need not match it); and when that parse fails, the route answers
with a 500 error response — there is no raw-text fallback at this layer,
so identity-document decoding can hard-fail the job. -/
theorem C4_span_decode_amended (d : List Char) (i j : ℕ)
    (hi : List.findIdx? (fun c => c = '\x7b') d = some i)
    (hj : List.findIdx? (fun c => c = '\x7d') d = some j)
    (hij : i ≤ j) :
    passportDecode d =
      (match jsonParse ((d.take (j + 1)).drop i) with
       | some v => Except.ok v
       | none => Except.error "Failed to parse passport data") ∧
    ((jsonParse ((d.take (j + 1)).drop i)).isSome = false →
      passportPost (some d) = PassportResp.err 500 "Failed to parse passport data") := by
  have hidx1 : idxOf d '\x7b' = (i : ℤ) := by simp [idxOf, hi]
  have hidx2 : idxOf d '\x7d' = (j : ℤ) := by simp [idxOf, hj]
  have hcond : 0 ≤ ((i : ℤ)) ∧ ((i : ℤ)) < ((j : ℤ)) + 1 := by
    constructor
    · exact Int.natCast_nonneg i
    · have : ((i : ℤ)) ≤ ((j : ℤ)) := by exact_mod_cast hij
      omega
  have hdec : passportDecode d =
      (match jsonParse ((d.take (j + 1)).drop i) with
       | some v => Except.ok v
       | none => Except.error "Failed to parse passport data") := by
    rw [passportDecode]
    rw [hidx1, hidx2, if_pos hcond]
    rw [show (((j : ℤ)) + 1).toNat = j + 1 by omega,
      show ((i : ℤ)).toNat = i by omega]
  refine ⟨hdec, fun hfail => ?_⟩
  rw [passportPost, hdec]
  rcases hsome : jsonParse ((d.take (j + 1)).drop i) with _ | v
  · rfl
  · rw [hsome] at hfail
    simp at hfail

/-- C4 witness: a concrete instantiation of the amended span-decode
theorem, on prose-wrapped unparseable content. -/
theorem C4_amended_witness :
    List.findIdx? (fun c => c = '\x7b') "see \x7bbad\x7d end".data = some 4 ∧
    List.findIdx? (fun c => c = '\x7d') "see \x7bbad\x7d end".data = some 8 ∧
    (jsonParse (("see \x7bbad\x7d end".data.take 9).drop 4)).isSome = false ∧
    passportPost (some "see \x7bbad\x7d end".data) =
      PassportResp.err 500 "Failed to parse passport data" :=
  ⟨by decide, by decide, by decide,
   (C4_span_decode_amended "see \x7bbad\x7d end".data 4 8 (by decide) (by decide)
     (by norm_num)).2 (by decide)⟩

end StatementParser
